import Mathlib

/-!
Verification of the quanta-chat plugin server and client sync logic.

This file gives a shallow embedding of the persistence layer
(src/server/db/DBRoom.ts, the DBMessages section), the signaling hub
(WebRTCServer in src/server/db/DBRoom.ts), the HTTP service layer
(src/server/ChatService.ts) and the client sync pass
(src/client/AppMessages.ts), and proves or refutes the frozen claims
about them.

The relational store is modelled as lists of rows (table order is list
order); SQL queries become list filters, stable sorts, and appends.
Signature verification (common/Crypto.js, outside this repository) is an
abstract boolean oracle passed as a parameter.  The host-app DBUsers
operations (blocked_keys table) are modelled from the spec where noted.
-/

/-! ## List sorting utilities

SQL ORDER BY and the JavaScript Array.prototype.sort (stable per
ES2019) are modelled by a stable insertion sort keyed by a boolean
total preorder. -/

/-- Insert an element into a list, placing it before the first element
it relates to.  With a reflexive-on-ties preorder this is the stable
insertion step. -/
def insertLe {α : Type} (le : α → α → Bool) (x : α) : List α → List α
  | [] => [x]
  | y :: ys => if le x y then x :: y :: ys else y :: insertLe le x ys

/-- Stable insertion sort by a boolean preorder. -/
def sortByLe {α : Type} (le : α → α → Bool) : List α → List α
  | [] => []
  | x :: xs => insertLe le x (sortByLe le xs)

theorem mem_insertLe {α : Type} (le : α → α → Bool) (x a : α) (l : List α) :
    a ∈ insertLe le x l ↔ a = x ∨ a ∈ l := by
  induction l with
  | nil => simp [insertLe]
  | cons y ys ih =>
    by_cases h : le x y = true
    · simp [insertLe, h]
    · simp [insertLe, h, ih]
      tauto

theorem mem_sortByLe {α : Type} (le : α → α → Bool) (a : α) (l : List α) :
    a ∈ sortByLe le l ↔ a ∈ l := by
  induction l with
  | nil => simp [sortByLe]
  | cons y ys ih => simp [sortByLe, mem_insertLe, ih]

theorem pairwise_insertLe {α : Type} (le : α → α → Bool)
    (htot : ∀ a b, le a b = true ∨ le b a = true)
    (htrans : ∀ a b c, le a b = true → le b c = true → le a c = true)
    (x : α) (l : List α) (h : l.Pairwise fun a b => le a b = true) :
    (insertLe le x l).Pairwise fun a b => le a b = true := by
  induction l with
  | nil => simp [insertLe]
  | cons y ys ih =>
    rcases List.pairwise_cons.mp h with ⟨hy, hys⟩
    by_cases hxy : le x y = true
    · rw [show insertLe le x (y :: ys) = if le x y then x :: y :: ys else y :: insertLe le x ys from rfl,
        if_pos hxy]
      refine List.pairwise_cons.mpr ⟨?_, h⟩
      intro b hb
      rcases List.mem_cons.mp hb with rfl | hb
      · exact hxy
      · exact htrans x y b hxy (hy b hb)
    · rw [show insertLe le x (y :: ys) = if le x y then x :: y :: ys else y :: insertLe le x ys from rfl,
        if_neg hxy]
      refine List.pairwise_cons.mpr ⟨?_, ih hys⟩
      intro b hb
      rcases (mem_insertLe le x b ys).mp hb with hbx | hb
      · rw [hbx]
        rcases htot x y with hcase | hcase
        · exact absurd hcase hxy
        · exact hcase
      · exact hy b hb

theorem pairwise_sortByLe {α : Type} (le : α → α → Bool)
    (htot : ∀ a b, le a b = true ∨ le b a = true)
    (htrans : ∀ a b c, le a b = true → le b c = true → le a c = true)
    (l : List α) :
    (sortByLe le l).Pairwise fun a b => le a b = true := by
  induction l with
  | nil => simp [sortByLe]
  | cons y ys ih => exact pairwise_insertLe le htot htrans y (sortByLe le ys) ih

/-! ## Base64 and data URLs

The source stores attachment bytes as binary (Buffer) and re-encodes
them as base64 data URLs on read (DBMessages.getMessagesForRoom and
getMessagesByIds); on write it decodes the data URL captured by the
regular expression of DBMessages.persistMessageToRoomId. -/

/-- The standard base64 alphabet. -/
def base64Alphabet : List Char :=
  "ABCDEFGHIJKLMNOPQRSTUVWXYZabcdefghijklmnopqrstuvwxyz0123456789+/".toList

/-- Character for a six-bit value. -/
def base64Char (n : Nat) : Char := base64Alphabet.getD n 'A'

/-- Encode a byte list into base64 characters with padding. -/
def base64Chunks : List Nat → List Char
  | [] => []
  | [b1] =>
    [base64Char (b1 / 4), base64Char (b1 % 4 * 16), '=', '=']
  | [b1, b2] =>
    [base64Char (b1 / 4), base64Char (b1 % 4 * 16 + b2 / 16), base64Char (b2 % 16 * 4), '=']
  | b1 :: b2 :: b3 :: rest =>
    base64Char (b1 / 4) :: base64Char (b1 % 4 * 16 + b2 / 16) ::
      base64Char (b2 % 16 * 4 + b3 / 64) :: base64Char (b3 % 64) :: base64Chunks rest

/-- Encode bytes as a base64 string (Buffer.toString of the source). -/
def base64Encode (bytes : List Nat) : String := String.mk (base64Chunks bytes)

/-- Six-bit value of a base64 character, none for non-alphabet characters. -/
def base64CharVal (c : Char) : Option Nat :=
  base64Alphabet.indexOf? c

/-- Pack a list of six-bit values back into bytes. -/
def base64Bits : List Nat → List Nat
  | v1 :: v2 :: v3 :: v4 :: rest =>
    (v1 * 4 + v2 / 16) :: (v2 % 16 * 16 + v3 / 4) :: (v3 % 4 * 64 + v4) :: base64Bits rest
  | [v1, v2, v3] => [v1 * 4 + v2 / 16, v2 % 16 * 16 + v3 / 4]
  | [v1, v2] => [v1 * 4 + v2 / 16]
  | _ => []

/-- Decode a base64 string leniently, skipping non-alphabet characters
the way Buffer.from(s, base64) does. -/
def base64Decode (s : String) : List Nat :=
  base64Bits (s.toList.filterMap base64CharVal)

/-- Character class of the mime portion of the data URL regular
expression of DBMessages.persistMessageToRoomId. -/
def mimeChar (c : Char) : Bool :=
  (('A' ≤ c && c ≤ 'Z') || ('a' ≤ c && c ≤ 'z') || c == '-' || c == '+' || c == '/')

/-- Strip a literal character sequence from the front of a list. -/
def stripLead : List Char → List Char → Option (List Char)
  | [], rest => some rest
  | _ :: _, [] => none
  | p :: ps, c :: cs => if c = p then stripLead ps cs else none

/-- Parse a data URL matching the source regular expression and decode
its payload to bytes; none when the pattern does not match. -/
def parseDataUrl (s : String) : Option (List Nat) :=
  match stripLead "data:".toList s.toList with
  | none => none
  | some rest =>
    let mime := rest.takeWhile mimeChar
    let rest2 := rest.drop mime.length
    if mime.isEmpty then none
    else
      match stripLead ";base64,".toList rest2 with
      | none => none
      | some payload =>
        if payload.isEmpty then none
        else some (base64Decode (String.mk payload))

/-- Render stored bytes as an inline data URL, as the read paths of
DBMessages do. -/
def dataUrl (mime : String) (bytes : List Nat) : String :=
  "data:" ++ mime ++ ";base64," ++ base64Encode bytes

/-! ## Data model

Message states from common/types/CommonTypes (MessageStates). -/

/-- Client-visible message states. -/
inductive MessageState where
  | SENT
  | SAVED
  | FAILED
deriving DecidableEq, Repr

/-- Wire attachment of a ChatMessage: data is a data URL string. -/
structure Attachment where
  name : String
  mime : String
  size : Nat
  data : String
deriving DecidableEq, Repr

/-- ChatMessageIntf of common/types/CommonTypes. -/
structure ChatMessage where
  id : String
  timestamp : Int
  sender : String
  content : String
  publicKey : Option String
  signature : Option String
  state : Option MessageState
  attachments : List Attachment
deriving DecidableEq, Repr

/-- Row of the rooms table. -/
structure RoomRow where
  id : Nat
  name : String
deriving DecidableEq, Repr

/-- Row of the messages table. -/
structure MessageRow where
  id : String
  room_id : Nat
  timestamp : Int
  sender : String
  content : String
  public_key : Option String
  signature : Option String
  state : Option MessageState
deriving DecidableEq, Repr

/-- Row of the attachments table; data holds raw bytes. -/
structure AttachmentRow where
  id : Nat
  message_id : String
  name : String
  mime : String
  size : Nat
  data : Option (List Nat)
deriving DecidableEq, Repr

/-- The relational store: the four tables of the schema, plus the next
serial ids. -/
structure DB where
  rooms : List RoomRow
  messages : List MessageRow
  attachments : List AttachmentRow
  blocked_keys : List String
  nextRoomId : Nat
  nextAttachmentId : Nat
deriving DecidableEq, Repr

/-! ## DBRoom operations (src/server/db/DBRoom.ts) -/

/-- DBRoom.getOrCreateRoom: look the room up by name, inserting a new
row with the next serial id when absent. -/
def getOrCreateRoom (db : DB) (roomName : String) : DB × Nat :=
  match db.rooms.find? (fun r => r.name == roomName) with
  | some r => (db, r.id)
  | none =>
    let rid := db.nextRoomId
    ({ db with
        rooms := db.rooms ++ [{ id := rid, name := roomName }],
        nextRoomId := rid + 1 }, rid)

/-! ## DBMessages operations (src/server/db/DBRoom.ts, DBMessages) -/

/-- DBMessages.persistMessageToRoomId: normalize state to SAVED, insert
the message row with ON CONFLICT (id) DO NOTHING, then insert one
attachment row per attachment, decoding each data URL to bytes.  The
source always resolves true; the boolean is returned for fidelity. -/
def persistMessageToRoomId (db : DB) (roomId : Nat) (message : ChatMessage) : DB × Bool :=
  let message := { message with state := some MessageState.SAVED }
  if db.messages.any (fun m => m.id == message.id) then
    (db, true)
  else
    let row : MessageRow :=
      { id := message.id, room_id := roomId, timestamp := message.timestamp,
        sender := message.sender, content := message.content,
        public_key := message.publicKey, signature := message.signature,
        state := message.state }
    let db := { db with messages := db.messages ++ [row] }
    let db := message.attachments.foldl
      (fun acc att =>
        let binaryData := if att.data == "" then none else parseDataUrl att.data
        { acc with
            attachments := acc.attachments ++
              [{ id := acc.nextAttachmentId, message_id := message.id,
                 name := att.name, mime := att.mime, size := att.size,
                 data := binaryData }],
            nextAttachmentId := acc.nextAttachmentId + 1 })
      db
    (db, true)

/-- DBMessages.persistMessageToRoomName: skip silently when the id is
already present, otherwise ensure the room exists and delegate to
persistMessageToRoomId; resolves true in both cases. -/
def persistMessageToRoomName (db : DB) (roomName : String) (message : ChatMessage) : DB × Bool :=
  if db.messages.any (fun m => m.id == message.id) then
    (db, true)
  else
    let pair := getOrCreateRoom db roomName
    ((persistMessageToRoomId pair.1 pair.2 message).1, true)

/-- DBMessages.saveMessages: ensure the room exists, then run
persistMessageToRoomId for every message of the batch, counting each
one whose persist call resolved true. -/
def saveMessages (db : DB) (roomName : String) (messages : List ChatMessage) : DB × Nat :=
  let pair := getOrCreateRoom db roomName
  messages.foldl
    (fun acc message =>
      let res := persistMessageToRoomId acc.1 pair.2 message
      if res.2 then (res.1, acc.2 + 1) else (res.1, acc.2))
    (pair.1, 0)

/-- Descending timestamp preorder of the ORDER BY m.timestamp DESC
clause of getMessagesForRoom; ties keep table order (stable sort). -/
def tsDescLe (a b : MessageRow) : Bool := decide (b.timestamp ≤ a.timestamp)

/-- Ascending timestamp preorder of the ORDER BY m.timestamp clause of
getMessagesByIds; ties keep table order (stable sort). -/
def tsAscLe (a b : MessageRow) : Bool := decide (a.timestamp ≤ b.timestamp)

/-- Ascending attachment id preorder of the ORDER BY a.id clause. -/
def attIdLe (a b : AttachmentRow) : Bool := decide (a.id ≤ b.id)

/-- Render an attachment row for the client: bytes become an inline
data URL, null data becomes the empty string. -/
def hydrateAttachment (row : AttachmentRow) : Attachment :=
  { name := row.name, mime := row.mime, size := row.size,
    data := match row.data with
      | some bytes => dataUrl row.mime bytes
      | none => "" }

/-- Per-message post-processing of getMessagesForRoom: state forced to
SAVED, publicKey mapped from the public_key column, attachments fetched
by message_id in table order and rendered as data URLs. -/
def hydrateMessage (db : DB) (row : MessageRow) : ChatMessage :=
  { id := row.id, timestamp := row.timestamp, sender := row.sender,
    content := row.content, publicKey := row.public_key,
    signature := row.signature, state := some MessageState.SAVED,
    attachments :=
      (db.attachments.filter (fun a => a.message_id == row.id)).map hydrateAttachment }

/-- DBMessages.getMessagesForRoom: resolve the room by name; select the
room messages ORDER BY timestamp DESC with LIMIT and OFFSET; hydrate
each message. -/
def getMessagesForRoom (db : DB) (roomName : String) (limit offset : Nat) : List ChatMessage :=
  match db.rooms.find? (fun r => r.name == roomName) with
  | none => []
  | some room =>
    let rows :=
      ((sortByLe tsDescLe (db.messages.filter (fun m => m.room_id == room.id))).drop offset).take limit
    rows.map (hydrateMessage db)

/-- Test of the ^\d+$ regular expression deciding whether a room key is
a numeric id or a name. -/
def isNumericStr (s : String) : Bool := !s.isEmpty && s.toList.all Char.isDigit

/-- parseInt on an all-digit string. -/
def parseNatDigits (s : String) : Nat :=
  s.toList.foldl (fun acc c => acc * 10 + (c.toNat - 48)) 0

/-- Room resolution shared by getMessagesByIds and the id-listing
queries: numeric keys look up rooms.id, other keys look up rooms.name. -/
def resolveRoom (db : DB) (roomKey : String) : Option RoomRow :=
  if isNumericStr roomKey then db.rooms.find? (fun r => r.id == parseNatDigits roomKey)
  else db.rooms.find? (fun r => r.name == roomKey)

/-- JavaScript (value || null) on an optional string column. -/
def jsOrNull : Option String → Option String
  | some s => if s == "" then none else some s
  | none => none

/-- DBMessages.getMessagesByIds: empty id list or unresolvable room key
yields an empty list; otherwise select the messages of the resolved
room whose id is in the list, joined with their attachments.  The join
is ordered by (m.timestamp, a.id); the model sorts messages by
timestamp (stable on table order for ties, which only affects result
sequence, not membership) and each message's attachments by id. -/
def getMessagesByIds (db : DB) (messageIds : List String) (roomKey : String) : List ChatMessage :=
  if messageIds.isEmpty then []
  else
    match resolveRoom db roomKey with
    | none => []
    | some room =>
      let rows := sortByLe tsAscLe
        (db.messages.filter (fun m => messageIds.contains m.id && m.room_id == room.id))
      rows.map (fun row =>
        { id := row.id, state := some MessageState.SAVED, timestamp := row.timestamp,
          sender := row.sender, content := row.content,
          publicKey := jsOrNull row.public_key, signature := row.signature,
          attachments :=
            (sortByLe attIdLe (db.attachments.filter (fun a => a.message_id == row.id))).map
              hydrateAttachment })

/-- DBMessages.deleteMessage: refuse unless the requester key equals
the stored public_key of the first matching row or equals the admin
key; otherwise delete the attachments of the message, then the message
rows, and report whether a message row was removed. -/
def deleteMessage (db : DB) (messageId : String) (publicKey : String)
    (adminPubKey : Option String) : DB × Bool :=
  match db.messages.find? (fun m => m.id == messageId) with
  | none => (db, false)
  | some row =>
    if row.public_key != some publicKey && adminPubKey != some publicKey then
      (db, false)
    else
      let removed := (db.messages.filter (fun m => m.id == messageId)).length
      ({ db with
          attachments := db.attachments.filter (fun a => a.message_id != messageId),
          messages := db.messages.filter (fun m => m.id != messageId) },
        decide (0 < removed))

/-! ## DBUsers operations (host app, outside this repository) -/

/-- Modelled from the spec: DBUsers.isUserBlocked of the host app is
missing from the sources; section 4.3 of the spec defines isBlocked(key)
as membership in the blocked_keys table.  A missing key (JavaScript
undefined) matches no row. -/
def isUserBlocked (db : DB) (publicKey : Option String) : Bool :=
  match publicKey with
  | some k => db.blocked_keys.contains k
  | none => false

/-- Modelled from the spec: DBUsers.blockUser of the host app is missing
from the sources; section 4.3 defines blockUser(key) as an idempotent
insert into blocked_keys. -/
def blockUserDb (db : DB) (publicKey : String) : DB :=
  if db.blocked_keys.contains publicKey then db
  else { db with blocked_keys := db.blocked_keys ++ [publicKey] }

/-- Modelled from the spec: DBUsers.deleteUserContent of the host app is
missing from the sources; section 4.3 defines it as removing all of the
key's messages and their attachments across all rooms. -/
def deleteUserContent (db : DB) (publicKey : String) : DB :=
  let ownedIds := (db.messages.filter (fun m => m.public_key == some publicKey)).map
    (fun m => m.id)
  { db with
      messages := db.messages.filter (fun m => m.public_key != some publicKey),
      attachments := db.attachments.filter (fun a => !(ownedIds.contains a.message_id)) }

/-! ## Signaling hub state (WebRTCServer in src/server/db/DBRoom.ts)

Connections are identified by numeric handles; wss.clients is the
iteration-ordered list of connections and clientsMap the association
from connection to (room, user) recorded at join time. -/

/-- User record of common/types/CommonTypes: publicKey is optional. -/
structure User where
  name : String
  publicKey : Option String
deriving DecidableEq, Repr

/-- ClientInfo of WebRTCServer: the room and user of a connection. -/
structure ClientInfo where
  room : String
  user : User
deriving DecidableEq, Repr

/-- One WebSocket connection: its handle and whether readyState is
OPEN. -/
structure ClientConn where
  cid : Nat
  isOpen : Bool
deriving DecidableEq, Repr

/-- Hub state: wss.clients and clientsMap. -/
structure ServerState where
  clients : List ClientConn
  clientsMap : List (Nat × ClientInfo)
deriving DecidableEq, Repr

/-- Lookup of clientsMap.get(ws). -/
def lookupClient (st : ServerState) (cid : Nat) : Option ClientInfo :=
  match st.clientsMap.find? (fun p => p.1 == cid) with
  | some p => some p.2
  | none => none

/-- WebRTCSignal frame (offer, answer, ice-candidate): routing fields
only; the signaling payload itself is opaque to the hub. -/
structure SignalMsg where
  stype : String
  id : String
  target : Option User
  room : Option String
  sender : Option User
deriving DecidableEq, Repr

/-- WebRTCBroadcast frame carrying the inner chat message. -/
structure BroadcastMsg where
  room : Option String
  message : ChatMessage
  sender : Option User
deriving DecidableEq, Repr

/-- Outbound frames the hub sends over a connection. -/
inductive Frame where
  | signal : SignalMsg → Frame
  | broadcast : BroadcastMsg → Frame
  | ack : String → Frame
  | deleteMsg : String → String → Frame
deriving DecidableEq, Repr

/-- JavaScript truthiness of an optional string. -/
def strOptTruthy : Option String → Bool
  | some s => !s.isEmpty
  | none => false

/-- WebRTCServer.onSignaling: annotate the frame with the sender's user
record and room, then send it to every open registered connection
satisfying the source's comparison, which tests the tautology
clientInfo.room === clientInfo.room (not the sender's room) together
with clientInfo.user.publicKey === msg.target.publicKey. -/
def onSignaling (st : ServerState) (senderCid : Nat) (msg : SignalMsg) : List (Nat × Frame) :=
  match msg.target with
  | none => []
  | some target =>
    match lookupClient st senderCid with
    | none => []
    | some fromClientInfo =>
      let msg := { msg with
        sender := some fromClientInfo.user, room := some fromClientInfo.room }
      st.clients.filterMap (fun cws =>
        match lookupClient st cws.cid with
        | some clientInfo =>
          if cws.isOpen && (clientInfo.room == clientInfo.room) &&
              (clientInfo.user.publicKey == target.publicKey) then
            some (cws.cid, Frame.signal msg)
          else none
        | none => none)

/-- WebRTCServer.persist: verify the inner chat message's signature
(abstract oracle), consult the block list, and only then persist via
persistMessageToRoomName; on verification failure or a blocked key the
store is left untouched. -/
def persist (db : DB) (verify : ChatMessage → Bool) (data : BroadcastMsg) : DB :=
  if strOptTruthy data.room then
    if !(verify data.message) then db
    else if isUserBlocked db data.message.publicKey then db
    else (persistMessageToRoomName db (data.room.getD "") data.message).1
  else db

/-- WebRTCServer.onBroadcast: first await persist (which may drop the
message), then, independent of the persist outcome, send the ack frame
to the originator and the full annotated broadcast frame to every other
open connection registered in msg.room. -/
def onBroadcast (st : ServerState) (db : DB) (verify : ChatMessage → Bool)
    (senderCid : Nat) (msg : BroadcastMsg) : DB × List (Nat × Frame) :=
  if !(strOptTruthy msg.room) then (db, [])
  else
    let db := persist db verify msg
    match lookupClient st senderCid with
    | none => (db, [])
    | some senderClientInfo =>
      let msg := { msg with sender := some senderClientInfo.user }
      (db, st.clients.filterMap (fun cws =>
        match lookupClient st cws.cid with
        | some clientInfo =>
          if cws.isOpen && (some clientInfo.room == msg.room) then
            if cws.cid == senderCid then some (cws.cid, Frame.ack msg.message.id)
            else some (cws.cid, Frame.broadcast msg)
          else none
        | none => none))

/-- WebRTCServer.sendDeleteMessage: fan the delete-msg frame out to
every open registered connection of the room whose public key differs
from the initiator's. -/
def sendDeleteMessage (st : ServerState) (roomName : String) (messageId : String)
    (publicKey : String) : List (Nat × Frame) :=
  st.clients.filterMap (fun cws =>
    match lookupClient st cws.cid with
    | some clientInfo =>
      if clientInfo.user.publicKey != some publicKey && cws.isOpen &&
          clientInfo.room == roomName then
        some (cws.cid, Frame.deleteMsg roomName messageId)
      else none
    | none => none)

/-! ## ChatService endpoints (src/server/ChatService.ts) -/

/-- Minimal HTTP response: status code and body. -/
structure HttpResp where
  status : Nat
  body : String
deriving DecidableEq, Repr

/-- ChatService.deleteMessage: 400 without a message id; otherwise run
the store deletion, then fan out the delete-msg notification
unconditionally, and answer 200 on success or 404 otherwise. -/
def chatDeleteMessage (st : ServerState) (db : DB) (messageId roomName : String)
    (publicKey : String) (adminKey : String) : DB × List (Nat × Frame) × HttpResp :=
  if messageId.isEmpty then
    (db, [], { status := 400, body := "Message ID is required" })
  else
    let res := deleteMessage db messageId publicKey (some adminKey)
    let sends := sendDeleteMessage st roomName messageId publicKey
    if res.2 then
      (res.1, sends, { status := 200, body := "deleted" })
    else
      (res.1, sends, { status := 404, body := "not found" })

/-- ChatService.blockUser: 400 without a public key; otherwise run
deleteUserContent and then blockUser in sequence inside one try block,
so a deleteUserContent failure jumps to the catch handler (error
surfaced) before blockUser runs.  The possibly failing content deletion
is a parameter so both outcomes can be analysed. -/
def chatBlockUser (db : DB) (publicKey : Option String)
    (delContent : DB → String → Except String DB) : DB × HttpResp :=
  if !(strOptTruthy publicKey) then
    (db, { status := 400, body := "Missing pub_key parameter" })
  else
    let k := publicKey.getD ""
    match delContent db k with
    | Except.error e => (db, { status := 500, body := e })
    | Except.ok db1 =>
      (blockUserDb db1 k, { status := 200, body := "User was blocked successfully." })

/-! ## Client sync pass (AppMessages.loadRoomMessages, server portion) -/

/-- Ascending timestamp preorder used by the client's
sort((a, b) => a.timestamp - b.timestamp). -/
def tsAscMsgLe (a b : ChatMessage) : Bool := decide (a.timestamp ≤ b.timestamp)

/-- One step of the reconciliation filter of loadRoomMessages: promote
messages the server knows to SAVED; drop messages the server no longer
has when they were locally SAVED; keep everything else unchanged. -/
def syncFilterStep (serverIds : List String) (msg : ChatMessage) : Option ChatMessage :=
  if serverIds.contains msg.id then
    some { msg with state := some MessageState.SAVED }
  else if msg.state == some MessageState.SAVED then none
  else some msg

/-- The reconciled local list (the messages variable of
loadRoomMessages after the filter loop ran). -/
def keptMessages (localMessages : List ChatMessage) (serverIds : List String) :
    List ChatMessage :=
  localMessages.filterMap (syncFilterStep serverIds)

/-- The server ids with no local copy after reconciliation (the
missingIds variable of loadRoomMessages). -/
def missingIdsOf (localMessages : List ChatMessage) (serverIds : List String) :
    List String :=
  serverIds.filter
    (fun i => !(((keptMessages localMessages serverIds).map (fun m => m.id)).contains i))

/-- Server portion of AppMessages.loadRoomMessages: an empty server id
set returns the local list unchanged (early return); otherwise
reconcile states, fetch messages missing locally via the
get-messages-by-id endpoint (abstract oracle), and sort by ascending
timestamp when any were fetched. -/
def syncRoomMessages (localMessages : List ChatMessage) (serverMessageIds : List String)
    (fetchByIds : List String → List ChatMessage) : List ChatMessage :=
  if serverMessageIds.isEmpty then localMessages
  else
    let messages := keptMessages localMessages serverMessageIds
    let missingIds := missingIdsOf localMessages serverMessageIds
    if missingIds.isEmpty then messages
    else
      let fetched := fetchByIds missingIds
      if fetched.isEmpty then messages
      else sortByLe tsAscMsgLe (messages ++ fetched)

/-! ## Helper lemmas about the operations -/

/-- Resolution value of persistMessageToRoomId is always true: a
duplicate id is treated as success. -/
theorem persist_toRoomId_snd (db : DB) (rid : Nat) (m : ChatMessage) :
    (persistMessageToRoomId db rid m).2 = true := by
  unfold persistMessageToRoomId
  by_cases h : db.messages.any (fun x => x.id == m.id) <;> simp [h]

/-- The attachment insertion loop never touches the rooms table. -/
theorem foldl_rooms_eq {β : Type} (f : DB → β → DB)
    (hf : ∀ d a, (f d a).rooms = d.rooms) :
    ∀ (l : List β) (d : DB), (l.foldl f d).rooms = d.rooms := by
  intro l
  induction l with
  | nil => intro d; simp
  | cons a as ih => intro d; simp only [List.foldl_cons]; rw [ih, hf]

/-- persistMessageToRoomId never touches the rooms table. -/
theorem persist_toRoomId_rooms (db : DB) (rid : Nat) (m : ChatMessage) :
    (persistMessageToRoomId db rid m).1.rooms = db.rooms := by
  unfold persistMessageToRoomId
  by_cases h : db.messages.any (fun x => x.id == m.id)
  · simp [h]
  · simp only [h]
    simp only [Bool.false_eq_true, if_false]
    rw [foldl_rooms_eq]
    intro d a
    rfl

/-- getOrCreateRoom leaves or creates a row carrying the requested
name. -/
theorem getOrCreateRoom_mem (db : DB) (roomName : String) :
    ∃ r ∈ (getOrCreateRoom db roomName).1.rooms, r.name = roomName := by
  cases hfind : db.rooms.find? (fun r => r.name == roomName) with
  | some r =>
    refine ⟨r, ?_, ?_⟩
    · simp [getOrCreateRoom, hfind]
      exact List.mem_of_find?_eq_some hfind
    · have hp := List.find?_some hfind
      simpa using hp
  | none =>
    refine ⟨{ id := db.nextRoomId, name := roomName }, ?_, rfl⟩
    simp [getOrCreateRoom, hfind]

/-- The save loop of saveMessages (with its if reduced by
persist_toRoomId_snd) counts every message of the batch and leaves the
rooms table as it was after room resolution. -/
theorem saveMessages_loop_spec (rid : Nat) (messages : List ChatMessage) :
    ∀ (p : DB × Nat),
      (messages.foldl (fun acc message =>
          ((persistMessageToRoomId acc.1 rid message).1, acc.2 + 1)) p).2
        = p.2 + messages.length ∧
      (messages.foldl (fun acc message =>
          ((persistMessageToRoomId acc.1 rid message).1, acc.2 + 1)) p).1.rooms
        = p.1.rooms := by
  induction messages with
  | nil => intro p; simp
  | cons m ms ih =>
    intro p
    simp only [List.foldl_cons]
    rcases ih ((persistMessageToRoomId p.1 rid m).1, p.2 + 1) with ⟨h1, h2⟩
    refine ⟨?_, ?_⟩
    · rw [h1]; simp; omega
    · rw [h2]
      exact persist_toRoomId_rooms p.1 rid m

/-- On a blocked sender key, persist leaves the store untouched. -/
theorem persist_of_blocked (db : DB) (verify : ChatMessage → Bool) (data : BroadcastMsg)
    (h : isUserBlocked db data.message.publicKey = true) :
    persist db verify data = db := by
  unfold persist
  by_cases h1 : strOptTruthy data.room = true
  · by_cases h2 : verify data.message = true <;> simp [h1, h2, h]
  · simp [h1]

/-- On signature verification failure, persist leaves the store
untouched. -/
theorem persist_of_unverified (db : DB) (verify : ChatMessage → Bool) (data : BroadcastMsg)
    (h : verify data.message = false) :
    persist db verify data = db := by
  unfold persist
  by_cases h1 : strOptTruthy data.room = true <;> simp [h1, h]

/-- The store component of onBroadcast is exactly the persist result. -/
theorem onBroadcast_fst (st : ServerState) (db : DB) (verify : ChatMessage → Bool)
    (cid : Nat) (msg : BroadcastMsg) :
    (onBroadcast st db verify cid msg).1
      = if strOptTruthy msg.room = true then persist db verify msg else db := by
  unfold onBroadcast
  by_cases hroom : strOptTruthy msg.room = true
  · simp only [hroom, Bool.not_true, Bool.false_eq_true, if_false, if_true]
    cases lookupClient st cid <;> simp
  · simp [hroom]

/-- The frames onBroadcast sends do not depend on the store or on the
verification outcome: fan-out happens whether or not persist dropped
the message. -/
theorem onBroadcast_sends_indep (st : ServerState) (db db2 : DB)
    (verify verify2 : ChatMessage → Bool) (cid : Nat) (msg : BroadcastMsg) :
    (onBroadcast st db verify cid msg).2 = (onBroadcast st db2 verify2 cid msg).2 := by
  unfold onBroadcast
  by_cases hroom : strOptTruthy msg.room = true
  · simp only [hroom, Bool.not_true, Bool.false_eq_true, if_false]
    cases lookupClient st cid <;> simp
  · simp [hroom]

/-! ## Claim C1 -/

/-- Store for the C1 scenario: room r exists and key kA is blocked. -/
def c1db : DB :=
  { rooms := [{ id := 1, name := "r" }], messages := [], attachments := [],
    blocked_keys := ["kA"], nextRoomId := 2, nextAttachmentId := 1 }

/-- Same store without the block, for comparing fan-outs. -/
def c1dbUnblocked : DB :=
  { rooms := [{ id := 1, name := "r" }], messages := [], attachments := [],
    blocked_keys := [], nextRoomId := 2, nextAttachmentId := 1 }

/-- Chat message m2 broadcast by the blocked sender A. -/
def c1msg : ChatMessage :=
  { id := "m2", timestamp := 1000, sender := "A", content := "hi",
    publicKey := some "kA", signature := some "sig", state := none, attachments := [] }

/-- Hub state: A (connection 1) and B (connection 2), both open in
room r. -/
def c1st : ServerState :=
  { clients := [{ cid := 1, isOpen := true }, { cid := 2, isOpen := true }],
    clientsMap :=
      [(1, { room := "r", user := { name := "A", publicKey := some "kA" } }),
       (2, { room := "r", user := { name := "B", publicKey := some "kB" } })] }

/-- Broadcast frame carrying m2 into room r. -/
def c1b : BroadcastMsg := { room := some "r", message := c1msg, sender := none }

/-- C1 counterexample: with kA blocked and the signature accepted, no
messages row is inserted, yet B still receives the full broadcast frame
and A still receives the ack — refuting the claim that the frame is not
sent to other members and no ack is sent. -/
theorem C1_counterexample :
    isUserBlocked c1db c1b.message.publicKey = true ∧
    (onBroadcast c1st c1db (fun _ => true) 1 c1b).1.messages = c1db.messages ∧
    (2, Frame.broadcast
        { room := some "r", message := c1msg,
          sender := some { name := "A", publicKey := some "kA" } })
      ∈ (onBroadcast c1st c1db (fun _ => true) 1 c1b).2 ∧
    (1, Frame.ack "m2") ∈ (onBroadcast c1st c1db (fun _ => true) 1 c1b).2 := by
  decide

/-- C1 amended: when the inner message's key is blocked at persist
time, the store is left untouched (no messages row is inserted), but
the fan-out is not suppressed: the ack and broadcast frames sent are
exactly those that an unblocked (or differently verified) store would
receive. -/
theorem C1_theorem (st : ServerState) (db db2 : DB) (verify verify2 : ChatMessage → Bool)
    (cid : Nat) (msg : BroadcastMsg)
    (hblocked : isUserBlocked db msg.message.publicKey = true) :
    (onBroadcast st db verify cid msg).1 = db ∧
    (onBroadcast st db verify cid msg).2 = (onBroadcast st db2 verify2 cid msg).2 := by
  constructor
  · rw [onBroadcast_fst]
    by_cases hroom : strOptTruthy msg.room = true
    · simp [hroom, persist_of_blocked db verify msg hblocked]
    · simp [hroom]
  · exact onBroadcast_sends_indep st db db2 verify verify2 cid msg

/-- Witness for C1 at the concrete scenario. -/
theorem C1_witness :
    (onBroadcast c1st c1db (fun _ => true) 1 c1b).1 = c1db ∧
    (onBroadcast c1st c1db (fun _ => true) 1 c1b).2
      = (onBroadcast c1st c1dbUnblocked (fun _ => false) 1 c1b).2 :=
  C1_theorem c1st c1db c1dbUnblocked (fun _ => true) (fun _ => false) 1 c1b (by decide)

/-! ## Claim C2 -/

/-- Store for the C2 scenario: room r exists, nobody blocked. -/
def c2db : DB :=
  { rooms := [{ id := 1, name := "r" }], messages := [], attachments := [],
    blocked_keys := [], nextRoomId := 2, nextAttachmentId := 1 }

/-- Chat message m3 whose signature the oracle rejects. -/
def c2msg : ChatMessage :=
  { id := "m3", timestamp := 2000, sender := "A", content := "bad",
    publicKey := some "kA", signature := some "broken", state := none, attachments := [] }

/-- Hub state for C2: A and B open in room r. -/
def c2st : ServerState :=
  { clients := [{ cid := 1, isOpen := true }, { cid := 2, isOpen := true }],
    clientsMap :=
      [(1, { room := "r", user := { name := "A", publicKey := some "kA" } }),
       (2, { room := "r", user := { name := "B", publicKey := some "kB" } })] }

/-- Broadcast frame carrying m3 into room r. -/
def c2b : BroadcastMsg := { room := some "r", message := c2msg, sender := none }

/-- C2 counterexample: with the signature rejected, the message is not
persisted, yet B still receives the full broadcast frame and A still
receives the ack — refuting the claim that the frame is dropped with no
relay and no ack. -/
theorem C2_counterexample :
    (onBroadcast c2st c2db (fun _ => false) 1 c2b).1.messages = c2db.messages ∧
    (2, Frame.broadcast
        { room := some "r", message := c2msg,
          sender := some { name := "A", publicKey := some "kA" } })
      ∈ (onBroadcast c2st c2db (fun _ => false) 1 c2b).2 ∧
    (1, Frame.ack "m3") ∈ (onBroadcast c2st c2db (fun _ => false) 1 c2b).2 := by
  decide

/-- C2 amended: a broadcast whose inner message fails verification is
not persisted (the store is untouched), but it is still relayed and
acknowledged (the fan-out equals the one a passing verification would
produce); and every messages row present after the broadcast pipeline
ran was already stored or was persisted under a passing verification. -/
theorem C2_theorem (st : ServerState) (db : DB) (verify : ChatMessage → Bool)
    (cid : Nat) (msg : BroadcastMsg) :
    (verify msg.message = false →
      (onBroadcast st db verify cid msg).1 = db ∧
      (onBroadcast st db verify cid msg).2
        = (onBroadcast st db (fun _ => true) cid msg).2) ∧
    (∀ row, row ∈ (onBroadcast st db verify cid msg).1.messages →
      row ∈ db.messages ∨ verify msg.message = true) := by
  constructor
  · intro hv
    constructor
    · rw [onBroadcast_fst]
      by_cases hroom : strOptTruthy msg.room = true
      · simp [hroom, persist_of_unverified db verify msg hv]
      · simp [hroom]
    · exact onBroadcast_sends_indep st db db (fun _ => true) verify cid msg ▸
        onBroadcast_sends_indep st db db verify (fun _ => true) cid msg
  · intro row hrow
    by_cases hv : verify msg.message = true
    · exact Or.inr hv
    · left
      rw [onBroadcast_fst] at hrow
      by_cases hroom : strOptTruthy msg.room = true
      · rw [if_pos hroom,
          persist_of_unverified db verify msg (Bool.eq_false_iff.mpr hv)] at hrow
        exact hrow
      · rw [if_neg hroom] at hrow
        exact hrow

/-- Witness for C2 at the concrete scenario with a rejecting oracle. -/
theorem C2_witness :
    (onBroadcast c2st c2db (fun _ => false) 1 c2b).1 = c2db ∧
    (onBroadcast c2st c2db (fun _ => false) 1 c2b).2
      = (onBroadcast c2st c2db (fun _ => true) 1 c2b).2 :=
  (C2_theorem c2st c2db (fun _ => false) 1 c2b).1 rfl

/-! ## Claim C3 -/

/-- Hub state for C3: A (connection 1) registered in room r1, B
(connection 2) registered in a different room r2, both open. -/
def c3st : ServerState :=
  { clients := [{ cid := 1, isOpen := true }, { cid := 2, isOpen := true }],
    clientsMap :=
      [(1, { room := "r1", user := { name := "A", publicKey := some "kA" } }),
       (2, { room := "r2", user := { name := "B", publicKey := some "kB" } })] }

/-- Offer frame from A targeting B's public key. -/
def c3msg : SignalMsg :=
  { stype := "offer", id := "s1",
    target := some { name := "B", publicKey := some "kB" },
    room := none, sender := none }

/-- C3 evaluation at the failing input: the sender is registered in
room r1 and the only connection holding the target key is registered in
room r2, yet the hub forwards the annotated frame to it — the
tautological room comparison of onSignaling never filters by room, so
cross-room delivery happens where the claim requires a silent drop. -/
theorem C3_theorem :
    onSignaling c3st 1 c3msg =
      [(2, Frame.signal
        { stype := "offer", id := "s1",
          target := some { name := "B", publicKey := some "kB" },
          room := some "r1",
          sender := some { name := "A", publicKey := some "kA" } })] := by
  decide

/-! ## Claim C4 -/

/-- Store for C4: room r already holds message m1. -/
def c4db : DB :=
  { rooms := [{ id := 1, name := "r" }],
    messages :=
      [{ id := "m1", room_id := 1, timestamp := 5, sender := "A", content := "x",
         public_key := some "kA", signature := none, state := some MessageState.SAVED }],
    attachments := [], blocked_keys := [], nextRoomId := 2, nextAttachmentId := 1 }

/-- A fresh copy of m1 submitted again in a batch. -/
def c4msg : ChatMessage :=
  { id := "m1", timestamp := 5, sender := "A", content := "x", publicKey := some "kA",
    signature := none, state := none, attachments := [] }

/-- C4 counterexample: a batch consisting solely of a duplicate id
reports one saved message while zero rows were inserted — the returned
count does not exclude duplicates. -/
theorem C4_counterexample :
    (saveMessages c4db "r" [c4msg]).2 = 1 ∧
    (saveMessages c4db "r" [c4msg]).1.messages = c4db.messages := by
  decide

/-- C4 amended: saveMessages ensures the room exists and attempts each
message of the batch in one transaction, but the returned count is the
number of messages processed — duplicates are counted as successes, so
the count always equals the batch length rather than the number of rows
actually inserted. -/
theorem C4_theorem (db : DB) (roomName : String) (messages : List ChatMessage) :
    (saveMessages db roomName messages).2 = messages.length ∧
    ∃ r ∈ (saveMessages db roomName messages).1.rooms, r.name = roomName := by
  have hloop := saveMessages_loop_spec (getOrCreateRoom db roomName).2 messages
    ((getOrCreateRoom db roomName).1, 0)
  have hsave : saveMessages db roomName messages
      = messages.foldl (fun acc message =>
          ((persistMessageToRoomId acc.1 (getOrCreateRoom db roomName).2 message).1,
            acc.2 + 1))
        ((getOrCreateRoom db roomName).1, 0) := by
    unfold saveMessages
    simp only [persist_toRoomId_snd, if_pos]
  rw [hsave]
  rcases hloop with ⟨h1, h2⟩
  refine ⟨by rw [h1]; simp, ?_⟩
  rw [h2]
  exact getOrCreateRoom_mem db roomName

/-! ## Claim C5 -/

/-- C5: deleteMessage refuses and leaves the store unchanged unless the
requester key equals the stored public_key of the message or equals the
admin key; when authorized it removes the message's attachments and the
message row and reports that a row was removed. -/
theorem C5_theorem (db : DB) (messageId requesterKey : String) (adminKey : Option String) :
    ((∀ row ∈ db.messages, row.id = messageId →
        (row.public_key ≠ some requesterKey ∧ adminKey ≠ some requesterKey)) →
      deleteMessage db messageId requesterKey adminKey = (db, false)) ∧
    (∀ row, db.messages.find? (fun m => m.id == messageId) = some row →
      (row.public_key = some requesterKey ∨ adminKey = some requesterKey) →
      (deleteMessage db messageId requesterKey adminKey).1.messages
          = db.messages.filter (fun m => m.id != messageId) ∧
      (deleteMessage db messageId requesterKey adminKey).1.attachments
          = db.attachments.filter (fun a => a.message_id != messageId) ∧
      (deleteMessage db messageId requesterKey adminKey).2 = true) := by
  constructor
  · intro hunauth
    unfold deleteMessage
    cases hfind : db.messages.find? (fun m => m.id == messageId) with
    | none => rfl
    | some row =>
      have hmem := List.mem_of_find?_eq_some hfind
      have hid : row.id = messageId := by
        have hp := List.find?_some hfind
        simpa using hp
      rcases hunauth row hmem hid with ⟨h1, h2⟩
      have hcond : (row.public_key != some requesterKey
          && adminKey != some requesterKey) = true := by
        simp [bne_iff_ne, h1, h2]
      simp [hcond]
  · intro row hfind hauth
    have hid : row.id = messageId := by
      have hp := List.find?_some hfind
      simpa using hp
    have hcond : (row.public_key != some requesterKey
        && adminKey != some requesterKey) = false := by
      rcases hauth with h | h <;> simp [bne_iff_ne, h]
    have hred : deleteMessage db messageId requesterKey adminKey
        = ({ db with
              attachments := db.attachments.filter (fun a => a.message_id != messageId),
              messages := db.messages.filter (fun m => m.id != messageId) },
            decide (0 < (db.messages.filter (fun m => m.id == messageId)).length)) := by
      unfold deleteMessage
      rw [hfind]
      simp [hcond]
    have hmemf : row ∈ db.messages.filter (fun m => m.id == messageId) := by
      refine List.mem_filter.mpr ⟨List.mem_of_find?_eq_some hfind, ?_⟩
      simp [hid]
    have hpos : (0 < (db.messages.filter (fun m => m.id == messageId)).length) := by
      exact List.length_pos.mpr (List.ne_nil_of_mem hmemf)
    rw [hred]
    simp [hpos]

/-- Store for the C5 witness: one message owned by kA with one
attachment. -/
def c5db : DB :=
  { rooms := [{ id := 1, name := "r" }],
    messages :=
      [{ id := "m1", room_id := 1, timestamp := 5, sender := "A", content := "x",
         public_key := some "kA", signature := none, state := some MessageState.SAVED }],
    attachments :=
      [{ id := 1, message_id := "m1", name := "f.txt", mime := "text/plain",
         size := 2, data := some [104, 105] }],
    blocked_keys := [], nextRoomId := 2, nextAttachmentId := 2 }

/-- Witness for C5: a requester who is neither the owner nor the admin
is refused and the store stays as it was. -/
theorem C5_witness : deleteMessage c5db "m1" "kB" (some "adm") = (c5db, false) :=
  (C5_theorem c5db "m1" "kB" (some "adm")).1 (by decide)

/-! ## Claim C6 -/

/-- C6: getMessagesByIds returns only messages of the resolved room —
every returned message has a requested id and a stored row in that
room, an id whose rows all live elsewhere never appears, and an
unresolvable room key yields the empty list. -/
theorem C6_theorem (db : DB) (messageIds : List String) (roomKey : String) :
    (resolveRoom db roomKey = none → getMessagesByIds db messageIds roomKey = []) ∧
    (∀ room, resolveRoom db roomKey = some room →
      (∀ m ∈ getMessagesByIds db messageIds roomKey,
        m.id ∈ messageIds ∧ ∃ row ∈ db.messages, row.id = m.id ∧ row.room_id = room.id) ∧
      (∀ i ∈ messageIds, (∀ row ∈ db.messages, row.id = i → row.room_id ≠ room.id) →
        ∀ m ∈ getMessagesByIds db messageIds roomKey, m.id ≠ i)) := by
  have hmain : ∀ room, resolveRoom db roomKey = some room →
      ∀ m ∈ getMessagesByIds db messageIds roomKey,
        m.id ∈ messageIds ∧ ∃ row ∈ db.messages, row.id = m.id ∧ row.room_id = room.id := by
    intro room hres m hm
    unfold getMessagesByIds at hm
    by_cases hempty : messageIds.isEmpty
    · simp [hempty] at hm
    · rw [if_neg hempty, hres] at hm
      rcases List.mem_map.mp hm with ⟨row, hrow, hconstr⟩
      have hrow2 := (mem_sortByLe _ row _).mp hrow
      rcases List.mem_filter.mp hrow2 with ⟨hrowmem, hcond⟩
      simp only [Bool.and_eq_true] at hcond
      have hids : messageIds.contains row.id = true := hcond.1
      have hroomid : row.room_id = room.id := by
        have hr := hcond.2
        simpa using hr
      have hmid : m.id = row.id := by rw [← hconstr]
      constructor
      · rw [hmid]
        simpa using hids
      · exact ⟨row, hrowmem, hmid.symm, hroomid⟩
  constructor
  · intro hres
    unfold getMessagesByIds
    by_cases hempty : messageIds.isEmpty
    · simp [hempty]
    · rw [if_neg hempty, hres]
  · intro room hres
    refine ⟨hmain room hres, ?_⟩
    intro i _ helse m hm hmi
    rcases hmain room hres m hm with ⟨_, row, hrowmem, hrowid, hroomid⟩
    exact helse row hrowmem (by rw [hrowid, hmi]) hroomid

/-- Store for the C6 witness. -/
def c6db : DB :=
  { rooms := [{ id := 1, name := "r" }],
    messages :=
      [{ id := "m1", room_id := 1, timestamp := 5, sender := "A", content := "x",
         public_key := none, signature := none, state := none }],
    attachments := [], blocked_keys := [], nextRoomId := 2, nextAttachmentId := 1 }

/-- Witness for C6: an unresolvable room key gives the empty list. -/
theorem C6_witness : getMessagesByIds c6db ["m1"] "nope" = [] :=
  (C6_theorem c6db ["m1"] "nope").1 (by decide)

/-! ## Claim C7 -/

theorem tsDescLe_total : ∀ a b, tsDescLe a b = true ∨ tsDescLe b a = true := by
  intro a b
  unfold tsDescLe
  rcases Int.le_total b.timestamp a.timestamp with h | h
  · left; simpa using h
  · right; simpa using h

theorem tsDescLe_trans :
    ∀ a b c, tsDescLe a b = true → tsDescLe b c = true → tsDescLe a c = true := by
  intro a b c h1 h2
  unfold tsDescLe at h1 h2 ⊢
  simp at h1 h2 ⊢
  omega

/-- Store for the C7 counterexample: two messages with equal timestamps
in the table order b then a. -/
def c7db : DB :=
  { rooms := [{ id := 1, name := "r" }],
    messages :=
      [{ id := "b", room_id := 1, timestamp := 100, sender := "A", content := "1",
         public_key := none, signature := none, state := none },
       { id := "a", room_id := 1, timestamp := 100, sender := "A", content := "2",
         public_key := none, signature := none, state := none }],
    attachments := [], blocked_keys := [], nextRoomId := 2, nextAttachmentId := 1 }

/-- The same rows in the opposite table order. -/
def c7db2 : DB :=
  { rooms := [{ id := 1, name := "r" }],
    messages :=
      [{ id := "a", room_id := 1, timestamp := 100, sender := "A", content := "2",
         public_key := none, signature := none, state := none },
       { id := "b", room_id := 1, timestamp := 100, sender := "A", content := "1",
         public_key := none, signature := none, state := none }],
    attachments := [], blocked_keys := [], nextRoomId := 2, nextAttachmentId := 1 }

/-- C7 counterexample: the ORDER BY clause has no id tie-break, so two
stores holding the same rows (equal timestamps) in different table
orders return the equal-timestamp messages in different sequences — the
tie order is insertion order, not message id, and is not stable across
permutations of the table. -/
theorem C7_counterexample :
    c7db.messages.Perm c7db2.messages ∧
    (getMessagesForRoom c7db "r" 100 0).map (fun m => m.id) = ["b", "a"] ∧
    (getMessagesForRoom c7db2 "r" 100 0).map (fun m => m.id) = ["a", "b"] := by
  refine ⟨?_, by decide, by decide⟩
  unfold c7db c7db2
  exact List.Perm.swap _ _ _

/-- C7 amended: getMessagesForRoom returns messages ordered
newest-first by timestamp (equal timestamps keep table order — there is
no id tie-break), each message's attachments are the stored rows for
its id rendered as inline data URLs, and every returned message is the
hydration of a stored row of the resolved room. -/
theorem C7_theorem (db : DB) (roomName : String) (limit offset : Nat) :
    (getMessagesForRoom db roomName limit offset).Pairwise
      (fun a b => b.timestamp ≤ a.timestamp) ∧
    (∀ m ∈ getMessagesForRoom db roomName limit offset,
      ∀ a ∈ m.attachments, ∃ att ∈ db.attachments,
        att.message_id = m.id ∧ a.name = att.name ∧ a.mime = att.mime ∧
        a.size = att.size ∧
        a.data = (match att.data with
          | some bytes => dataUrl att.mime bytes
          | none => "")) ∧
    (∀ room, db.rooms.find? (fun r => r.name == roomName) = some room →
      ∀ m ∈ getMessagesForRoom db roomName limit offset,
        ∃ row ∈ db.messages, row.room_id = room.id ∧ m = hydrateMessage db row) := by
  refine ⟨?_, ?_, ?_⟩
  · unfold getMessagesForRoom
    cases hfind : db.rooms.find? (fun r => r.name == roomName) with
    | none => simp
    | some room =>
      simp only [hfind]
      have hsorted := pairwise_sortByLe tsDescLe tsDescLe_total tsDescLe_trans
        (db.messages.filter (fun m => m.room_id == room.id))
      have hsub : List.Sublist
          (((sortByLe tsDescLe (db.messages.filter (fun m => m.room_id == room.id))).drop
            offset).take limit)
          (sortByLe tsDescLe (db.messages.filter (fun m => m.room_id == room.id))) :=
        (List.take_sublist _ _).trans (List.drop_sublist _ _)
      have hps := List.Pairwise.sublist hsub hsorted
      rw [List.pairwise_map]
      refine hps.imp ?_
      intro a b h
      exact of_decide_eq_true h
  · intro m hm a ha
    unfold getMessagesForRoom at hm
    cases hfind : db.rooms.find? (fun r => r.name == roomName) with
    | none =>
      rw [hfind] at hm
      simp at hm
    | some room =>
      rw [hfind] at hm
      have hm2 : m ∈ (((sortByLe tsDescLe
          (db.messages.filter (fun x => x.room_id == room.id))).drop offset).take
          limit).map (hydrateMessage db) := hm
      rcases List.mem_map.mp hm2 with ⟨row, _, hconstr⟩
      subst hconstr
      have ha2 : a ∈ (db.attachments.filter
          (fun x => x.message_id == row.id)).map hydrateAttachment := ha
      rcases List.mem_map.mp ha2 with ⟨att, hatt, haconstr⟩
      rcases List.mem_filter.mp hatt with ⟨hattmem, hattid⟩
      have hmid : att.message_id = row.id := by simpa using hattid
      refine ⟨att, hattmem, hmid, ?_, ?_, ?_, ?_⟩ <;> (rw [← haconstr]; rfl)
  · intro room hfind m hm
    unfold getMessagesForRoom at hm
    rw [hfind] at hm
    have hm2 : m ∈ (((sortByLe tsDescLe
        (db.messages.filter (fun x => x.room_id == room.id))).drop offset).take
        limit).map (hydrateMessage db) := hm
    rcases List.mem_map.mp hm2 with ⟨row, hrow, hconstr⟩
    have hrow2 : row ∈ sortByLe tsDescLe
        (db.messages.filter (fun x => x.room_id == room.id)) :=
      ((List.take_sublist _ _).trans (List.drop_sublist _ _)).subset hrow
    have hrow3 := (mem_sortByLe _ row _).mp hrow2
    rcases List.mem_filter.mp hrow3 with ⟨hmem, hcond⟩
    exact ⟨row, hmem, by simpa using hcond, hconstr.symm⟩

/-- Store for the C7 witness: one message with one stored attachment. -/
def c7wdb : DB :=
  { rooms := [{ id := 1, name := "r" }],
    messages :=
      [{ id := "m1", room_id := 1, timestamp := 5, sender := "A", content := "x",
         public_key := none, signature := none, state := none }],
    attachments :=
      [{ id := 1, message_id := "m1", name := "f.txt", mime := "text/plain",
         size := 2, data := some [104, 105] }],
    blocked_keys := [], nextRoomId := 2, nextAttachmentId := 2 }

/-- The hydrated message the C7 witness inspects. -/
def c7wmsg : ChatMessage :=
  { id := "m1", timestamp := 5, sender := "A", content := "x",
    publicKey := none, signature := none, state := some MessageState.SAVED,
    attachments :=
      [{ name := "f.txt", mime := "text/plain", size := 2,
         data := "data:text/plain;base64,aGk=" }] }

/-- The hydrated attachment the C7 witness inspects. -/
def c7watt : Attachment :=
  { name := "f.txt", mime := "text/plain", size := 2,
    data := "data:text/plain;base64,aGk=" }

/-- Witness for C7: the returned attachment of the concrete store is
the stored row rendered as a data URL. -/
theorem C7_witness :
    ∃ att ∈ c7wdb.attachments, att.message_id = c7wmsg.id ∧
      c7watt.name = att.name ∧ c7watt.mime = att.mime ∧ c7watt.size = att.size ∧
      c7watt.data = (match att.data with
        | some bytes => dataUrl att.mime bytes
        | none => "") :=
  (C7_theorem c7wdb "r" 100 0).2.1 c7wmsg (by decide) c7watt (by decide)

/-! ## Claim C8 -/

theorem tsAscMsgLe_total : ∀ a b, tsAscMsgLe a b = true ∨ tsAscMsgLe b a = true := by
  intro a b
  unfold tsAscMsgLe
  rcases Int.le_total a.timestamp b.timestamp with h | h
  · left; simpa using h
  · right; simpa using h

theorem tsAscMsgLe_trans :
    ∀ a b c, tsAscMsgLe a b = true → tsAscMsgLe b c = true → tsAscMsgLe a c = true := by
  intro a b c h1 h2
  unfold tsAscMsgLe at h1 h2 ⊢
  simp at h1 h2 ⊢
  omega

/-- Unfolding of the nonempty-server-id-set branch of
syncRoomMessages. -/
theorem syncRoomMessages_eq (localMessages : List ChatMessage)
    (serverMessageIds : List String) (fetchByIds : List String → List ChatMessage)
    (h : serverMessageIds ≠ []) :
    syncRoomMessages localMessages serverMessageIds fetchByIds
      = (if (missingIdsOf localMessages serverMessageIds).isEmpty then
           keptMessages localMessages serverMessageIds
         else if (fetchByIds (missingIdsOf localMessages serverMessageIds)).isEmpty then
           keptMessages localMessages serverMessageIds
         else
           sortByLe tsAscMsgLe (keptMessages localMessages serverMessageIds
             ++ fetchByIds (missingIdsOf localMessages serverMessageIds))) := by
  cases serverMessageIds with
  | nil => exact absurd rfl h
  | cons a as => rfl

/-- Reconciled local messages survive into the sync result. -/
theorem kept_mem_sync (localMessages : List ChatMessage)
    (serverMessageIds : List String) (fetchByIds : List String → List ChatMessage)
    (h : serverMessageIds ≠ []) (m : ChatMessage)
    (hm : m ∈ keptMessages localMessages serverMessageIds) :
    m ∈ syncRoomMessages localMessages serverMessageIds fetchByIds := by
  rw [syncRoomMessages_eq localMessages serverMessageIds fetchByIds h]
  by_cases h1 : (missingIdsOf localMessages serverMessageIds).isEmpty
  · simp [h1, hm]
  · by_cases h2 : (fetchByIds (missingIdsOf localMessages serverMessageIds)).isEmpty
    · simp [h1, h2, hm]
    · simp [h1, h2, mem_sortByLe, hm]

/-- Every element of the sync result is a reconciled local message or a
fetched one. -/
theorem sync_mem_cases (localMessages : List ChatMessage)
    (serverMessageIds : List String) (fetchByIds : List String → List ChatMessage)
    (h : serverMessageIds ≠ []) (m : ChatMessage)
    (hm : m ∈ syncRoomMessages localMessages serverMessageIds fetchByIds) :
    m ∈ keptMessages localMessages serverMessageIds ∨
      m ∈ fetchByIds (missingIdsOf localMessages serverMessageIds) := by
  rw [syncRoomMessages_eq localMessages serverMessageIds fetchByIds h] at hm
  by_cases h1 : (missingIdsOf localMessages serverMessageIds).isEmpty
  · rw [if_pos h1] at hm
    exact Or.inl hm
  · rw [if_neg h1] at hm
    by_cases h2 : (fetchByIds (missingIdsOf localMessages serverMessageIds)).isEmpty
    · rw [if_pos h2] at hm
      exact Or.inl hm
    · rw [if_neg h2] at hm
      rcases List.mem_append.mp ((mem_sortByLe _ m _).mp hm) with hk | hf
      · exact Or.inl hk
      · exact Or.inr hf

/-- C8 amended: when server mode is on and the server returns a
nonempty id set for the window (the early return on an empty set leaves
the cache untouched), the sync pass promotes server-known local
messages to SAVED, removes SAVED local messages the server no longer
lists, merges in the fetched missing messages, and — whenever a fetch
happened — returns the list sorted ascending by timestamp.  The fetch
oracle only returns messages with the requested ids. -/
theorem C8_theorem (localMessages : List ChatMessage) (serverMessageIds : List String)
    (fetchByIds : List String → List ChatMessage)
    (hids : serverMessageIds ≠ [])
    (hfetch : ∀ ids, ∀ m ∈ fetchByIds ids, m.id ∈ ids) :
    (∀ msg ∈ localMessages, msg.id ∈ serverMessageIds →
      { msg with state := some MessageState.SAVED }
        ∈ syncRoomMessages localMessages serverMessageIds fetchByIds) ∧
    (∀ msg ∈ localMessages, msg.id ∉ serverMessageIds →
      msg.state = some MessageState.SAVED →
      msg ∉ syncRoomMessages localMessages serverMessageIds fetchByIds) ∧
    (∀ m ∈ fetchByIds (missingIdsOf localMessages serverMessageIds),
      m ∈ syncRoomMessages localMessages serverMessageIds fetchByIds) ∧
    (fetchByIds (missingIdsOf localMessages serverMessageIds) ≠ [] →
      (syncRoomMessages localMessages serverMessageIds fetchByIds).Pairwise
        (fun a b => a.timestamp ≤ b.timestamp)) := by
  refine ⟨?_, ?_, ?_, ?_⟩
  · intro msg hmem hsrv
    refine kept_mem_sync localMessages serverMessageIds fetchByIds hids _ ?_
    refine List.mem_filterMap.mpr ⟨msg, hmem, ?_⟩
    simp [syncFilterStep, hsrv]
  · intro msg hmem hnot hsaved hres
    rcases sync_mem_cases localMessages serverMessageIds fetchByIds hids msg hres with hk | hf
    · rcases List.mem_filterMap.mp hk with ⟨msg0, _, hstep⟩
      unfold syncFilterStep at hstep
      by_cases hc : serverMessageIds.contains msg0.id = true
      · rw [if_pos hc] at hstep
        have hideq : msg.id = msg0.id := by
          have := congrArg (fun o => o.map (fun m => m.id)) hstep
          simpa using this.symm
        apply hnot
        rw [hideq]
        simpa using hc
      · rw [if_neg hc] at hstep
        by_cases hs0 : (msg0.state == some MessageState.SAVED) = true
        · rw [if_pos hs0] at hstep
          cases hstep
        · rw [if_neg hs0] at hstep
          have : msg0 = msg := by simpa using hstep
          apply hs0
          rw [this, hsaved]
          simp
    · have := hfetch (missingIdsOf localMessages serverMessageIds) msg hf
      have hsub : msg.id ∈ serverMessageIds := by
        unfold missingIdsOf at this
        exact (List.mem_filter.mp this).1
      exact hnot hsub
  · intro m hf
    have hid := hfetch (missingIdsOf localMessages serverMessageIds) m hf
    have hmiss : ¬ (missingIdsOf localMessages serverMessageIds).isEmpty = true := by
      intro hemp
      rw [List.isEmpty_iff.mp hemp] at hid
      simp at hid
    have hne : fetchByIds (missingIdsOf localMessages serverMessageIds) ≠ [] :=
      List.ne_nil_of_mem hf
    rw [syncRoomMessages_eq localMessages serverMessageIds fetchByIds hids]
    rw [if_neg hmiss, if_neg (by simpa [List.isEmpty_iff] using hne)]
    rw [mem_sortByLe]
    exact List.mem_append.mpr (Or.inr hf)
  · intro hne
    have hmiss : ¬ (missingIdsOf localMessages serverMessageIds).isEmpty = true := by
      intro hemp
      apply hne
      refine List.eq_nil_iff_forall_not_mem.mpr ?_
      intro m hm
      have hid := hfetch (missingIdsOf localMessages serverMessageIds) m hm
      rw [List.isEmpty_iff.mp hemp] at hid
      simp at hid
    rw [syncRoomMessages_eq localMessages serverMessageIds fetchByIds hids]
    rw [if_neg hmiss, if_neg (by simpa [List.isEmpty_iff] using hne)]
    have hp := pairwise_sortByLe tsAscMsgLe tsAscMsgLe_total tsAscMsgLe_trans
      (keptMessages localMessages serverMessageIds
        ++ fetchByIds (missingIdsOf localMessages serverMessageIds))
    refine hp.imp ?_
    intro a b hab
    exact of_decide_eq_true hab

/-- A locally SAVED message used by the C8 counterexample. -/
def c8m1 : ChatMessage :=
  { id := "m1", timestamp := 7, sender := "A", content := "x",
    publicKey := none, signature := none, state := some MessageState.SAVED,
    attachments := [] }

/-- C8 counterexample: the server id set for the window is empty, the
local message is SAVED and absent from it, yet the sync pass returns
the cache unchanged (early return) instead of deleting the message as
the claim requires. -/
theorem C8_counterexample :
    syncRoomMessages [c8m1] [] (fun _ => []) = [c8m1] ∧
    c8m1.state = some MessageState.SAVED ∧ c8m1.id ∉ ([] : List String) := by
  refine ⟨by decide, by decide, by simp⟩

/-- A locally SENT message used by the C8 witness. -/
def c8wm : ChatMessage :=
  { id := "m1", timestamp := 7, sender := "A", content := "x",
    publicKey := none, signature := none, state := some MessageState.SENT,
    attachments := [] }

/-- Witness for C8: with the id on the server, the local copy is
promoted to SAVED in the sync result. -/
theorem C8_witness :
    { c8wm with state := some MessageState.SAVED }
      ∈ syncRoomMessages [c8wm] ["m1"] (fun _ => []) :=
  (C8_theorem [c8wm] ["m1"] (fun _ => []) (by decide)
    (by intro ids m hm; simp at hm)).1 c8wm (by decide) (by decide)

/-! ## Claim C9 -/

/-- Blocking a key always leaves it in the blocked_keys table. -/
theorem mem_blockUserDb (db : DB) (k : String) : k ∈ (blockUserDb db k).blocked_keys := by
  unfold blockUserDb
  by_cases h : db.blocked_keys.contains k = true
  · rw [if_pos h]
    simpa using h
  · rw [if_neg h]
    simp

/-- C9 amended: the block-user endpoint runs deleteUserContent first
and blockUser second; when the content deletion fails the catch handler
surfaces the error and the block is NOT applied (blocked_keys is
unchanged), and only when the deletion succeeds is the key blocked. -/
theorem C9_theorem (db : DB) (pk : Option String)
    (delContent : DB → String → Except String DB) (k : String)
    (hpk : pk = some k) (hk : k ≠ "") :
    (∀ e, delContent db k = Except.error e →
      (chatBlockUser db pk delContent).1.blocked_keys = db.blocked_keys ∧
      (chatBlockUser db pk delContent).2 = { status := 500, body := e }) ∧
    (∀ db1, delContent db k = Except.ok db1 →
      (chatBlockUser db pk delContent).1 = blockUserDb db1 k ∧
      k ∈ (chatBlockUser db pk delContent).1.blocked_keys ∧
      (chatBlockUser db pk delContent).2.status = 200) := by
  have hke : k.isEmpty = false := by
    cases hb : k.isEmpty with
    | false => rfl
    | true => exact absurd ((String.isEmpty_iff k).mp hb) hk
  have htr : strOptTruthy pk = true := by
    rw [hpk]
    unfold strOptTruthy
    simp [hke]
  have hred : chatBlockUser db pk delContent
      = (match delContent db k with
         | Except.error e => (db, { status := 500, body := e })
         | Except.ok db1 =>
           (blockUserDb db1 k,
             { status := 200, body := "User was blocked successfully." })) := by
    unfold chatBlockUser
    rw [htr]
    simp [hpk]
  constructor
  · intro e he
    rw [hred, he]
    exact ⟨rfl, rfl⟩
  · intro db1 hok
    rw [hred, hok]
    exact ⟨rfl, mem_blockUserDb db1 k, rfl⟩

/-- Empty store used by the C9 counterexample. -/
def c9db : DB :=
  { rooms := [], messages := [], attachments := [], blocked_keys := [],
    nextRoomId := 1, nextAttachmentId := 1 }

/-- C9 counterexample: when the content deletion fails, the error is
surfaced (500) but the key is NOT blocked — refuting the claim that the
block is still applied. -/
theorem C9_counterexample :
    chatBlockUser c9db (some "k") (fun _ _ => Except.error "boom")
      = (c9db, { status := 500, body := "boom" }) ∧
    "k" ∉ (chatBlockUser c9db (some "k") (fun _ _ => Except.error "boom")).1.blocked_keys := by
  refine ⟨by decide, by decide⟩

/-- Store used by the C9 witness. -/
def c9wdb : DB :=
  { rooms := [], messages := [], attachments := [], blocked_keys := ["other"],
    nextRoomId := 1, nextAttachmentId := 1 }

/-- Witness for C9 at a concrete failing deletion: blocked_keys is
unchanged and the error is surfaced. -/
theorem C9_witness :
    (chatBlockUser c9wdb (some "ku") (fun _ _ => Except.error "fail")).1.blocked_keys
        = c9wdb.blocked_keys ∧
    (chatBlockUser c9wdb (some "ku") (fun _ _ => Except.error "fail")).2
        = { status := 500, body := "fail" } :=
  (C9_theorem c9wdb (some "ku") (fun _ _ => Except.error "fail") "ku" rfl
    (by decide)).1 "fail" rfl

/-! ## Claim C10 -/

/-- Membership characterization of the delete-msg fan-out: a connection
receives it exactly when it is open, registered in the room, and its
key differs from the requester's. -/
theorem mem_sendDeleteMessage (st : ServerState) (roomName messageId publicKey : String)
    (cid : Nat) :
    (cid, Frame.deleteMsg roomName messageId)
        ∈ sendDeleteMessage st roomName messageId publicKey ↔
      ∃ conn ∈ st.clients, conn.cid = cid ∧ conn.isOpen = true ∧
        ∃ info, lookupClient st conn.cid = some info ∧ info.room = roomName ∧
          info.user.publicKey ≠ some publicKey := by
  unfold sendDeleteMessage
  rw [List.mem_filterMap]
  constructor
  · rintro ⟨conn, hconn, hsome⟩
    cases hlk : lookupClient st conn.cid with
    | none =>
      simp only [hlk] at hsome
      exact Option.noConfusion hsome
    | some info =>
      simp only [hlk] at hsome
      by_cases hcond : (info.user.publicKey != some publicKey && conn.isOpen &&
          info.room == roomName) = true
      · rw [if_pos hcond] at hsome
        have hcid : conn.cid = cid := by
          have := Option.some.inj hsome
          exact congrArg Prod.fst this
        simp only [Bool.and_eq_true] at hcond
        rcases hcond with ⟨⟨hkey, hopen⟩, hroom⟩
        refine ⟨conn, hconn, hcid, hopen, info, hlk, ?_, ?_⟩
        · simpa using hroom
        · simpa [bne_iff_ne] using hkey
      · rw [if_neg hcond] at hsome
        cases hsome
  · rintro ⟨conn, hconn, hcid, hopen, info, hlk, hroom, hkey⟩
    refine ⟨conn, hconn, ?_⟩
    simp only [hlk]
    have hcond : (info.user.publicKey != some publicKey && conn.isOpen &&
        info.room == roomName) = true := by
      simp [bne_iff_ne, hkey, hopen, hroom]
    rw [if_pos hcond, hcid]

/-- C10: for a nonempty message id, the delete-msg notification is
fanned out to exactly the open members of the room other than the
requester's key, independent of whether the database deletion
succeeded, while the HTTP response is 404 when it did not and 200 when
it did. -/
theorem C10_theorem (st : ServerState) (db : DB)
    (messageId roomName publicKey adminKey : String) (hid : messageId ≠ "") :
    (∀ cid, (cid, Frame.deleteMsg roomName messageId)
        ∈ (chatDeleteMessage st db messageId roomName publicKey adminKey).2.1 ↔
      ∃ conn ∈ st.clients, conn.cid = cid ∧ conn.isOpen = true ∧
        ∃ info, lookupClient st conn.cid = some info ∧ info.room = roomName ∧
          info.user.publicKey ≠ some publicKey) ∧
    ((deleteMessage db messageId publicKey (some adminKey)).2 = false →
      (chatDeleteMessage st db messageId roomName publicKey adminKey).2.2
        = { status := 404, body := "not found" }) ∧
    ((deleteMessage db messageId publicKey (some adminKey)).2 = true →
      (chatDeleteMessage st db messageId roomName publicKey adminKey).2.2
        = { status := 200, body := "deleted" }) := by
  have hne : messageId.isEmpty = false := by
    cases hb : messageId.isEmpty with
    | false => rfl
    | true => exact absurd ((String.isEmpty_iff messageId).mp hb) hid
  have hred : chatDeleteMessage st db messageId roomName publicKey adminKey
      = ((deleteMessage db messageId publicKey (some adminKey)).1,
         sendDeleteMessage st roomName messageId publicKey,
         if (deleteMessage db messageId publicKey (some adminKey)).2
         then { status := 200, body := "deleted" }
         else { status := 404, body := "not found" }) := by
    unfold chatDeleteMessage
    rw [hne]
    by_cases h : (deleteMessage db messageId publicKey (some adminKey)).2 = true <;>
      simp [h]
  refine ⟨?_, ?_, ?_⟩
  · intro cid
    rw [hred]
    exact mem_sendDeleteMessage st roomName messageId publicKey cid
  · intro hfail
    rw [hred]
    simp [hfail]
  · intro hok
    rw [hred]
    simp [hok]

/-- Hub state for the C10 witness: the requester (key kReq) and B are
both open members of room r. -/
def c10st : ServerState :=
  { clients := [{ cid := 1, isOpen := true }, { cid := 2, isOpen := true }],
    clientsMap :=
      [(1, { room := "r", user := { name := "A", publicKey := some "kReq" } }),
       (2, { room := "r", user := { name := "B", publicKey := some "kB" } })] }

/-- Empty store for the C10 witness: message m1 does not exist, so the
deletion fails. -/
def c10db : DB :=
  { rooms := [], messages := [], attachments := [], blocked_keys := [],
    nextRoomId := 1, nextAttachmentId := 1 }

/-- Witness for C10: the deletion fails (message absent, response 404)
and yet B still receives the delete-msg frame. -/
theorem C10_witness :
    (2, Frame.deleteMsg "r" "m1")
        ∈ (chatDeleteMessage c10st c10db "m1" "r" "kReq" "adm").2.1 ∧
    (chatDeleteMessage c10st c10db "m1" "r" "kReq" "adm").2.2
        = { status := 404, body := "not found" } :=
  ⟨((C10_theorem c10st c10db "m1" "r" "kReq" "adm" (by decide)).1 2).mpr
      ⟨{ cid := 2, isOpen := true }, by decide, rfl, rfl,
        { room := "r", user := { name := "B", publicKey := some "kB" } }, by decide, rfl,
        by decide⟩,
    (C10_theorem c10st c10db "m1" "r" "kReq" "adm" (by decide)).2.1 (by decide)⟩
